import Mathlib

/- Shallow embedding of the configdb compare repository: the refactored
   variant `configuration_database_compare.py` and the legacy variant
   `configdb_compare_original.py`.  Python dicts are modelled as ordered
   association lists with the usual dict-assignment discipline (update in
   place on an existing key, append otherwise); machine I/O (the database
   fetch, the filesystem glob) is modelled by passing the fetched rows and
   file lines as explicit inputs. -/

/-- A Python dict from config name to config value, in insertion order. -/
abbrev Mapping := List (String × String)

/-- Python `m[k]` / `k in m`: the value stored at the first (hence, for a
real dict, the only) occurrence of the key. -/
def lookupKey : Mapping → String → Option String
  | [], _ => none
  | (k0, v0) :: rest, k => if k0 = k then some v0 else lookupKey rest k

/-- Python `k in m` on a dict. -/
def containsKey (m : Mapping) (k : String) : Bool :=
  (lookupKey m k).isSome

/-- The keys of the mapping, in insertion order. -/
def keysOf (m : Mapping) : List String := m.map Prod.fst

/-- Python dict assignment `m[k] = v`: overwrite in place when the key is
present, append a fresh entry otherwise. -/
def dictInsert (m : Mapping) (k v : String) : Mapping :=
  match m with
  | [] => [(k, v)]
  | (k0, v0) :: rest =>
      if k0 = k then (k0, v) :: rest else (k0, v0) :: dictInsert rest k v

/-- The substring filter of both variants:
`if not substring_condition or (substring_condition and substring_condition in config_name)`.
An empty substring is falsy in Python, so every key passes then. -/
def passesFilter (sub name : String) : Bool :=
  (sub == "") || decide (List.IsInfix sub.data name.data)

/-- One fetched database row, restricted to the ordinals the code reads:
`row[2]` (config name), `row[3]` (config value) and `row[5]` rendered as
`valid_date.strftime('%Y')` (the four-digit year string). -/
structure Row where
  configName : String
  configValue : String
  validYear : String
deriving DecidableEq, Repr

/-- Loop body of `analyze_database_config` in `configdb_compare_original.py`
(lines 185-202): skip rows whose validity year is not `9999`, count a
duplicate warning when the key is already flagged, then store the value if
the key passes the substring filter. -/
def analyzeStep (sub : String) (acc : Mapping × Nat) (r : Row) : Mapping × Nat :=
  if r.validYear ≠ "9999" then acc
  else
    let w := if containsKey acc.1 r.configName then acc.2 + 1 else acc.2
    if passesFilter sub r.configName then
      (dictInsert acc.1 r.configName r.configValue, w)
    else (acc.1, w)

/-- `analyze_database_config` of the original variant, over the rows the
cursor fetch returned.  Returns the flagged-keys dict together with the
warning total added to `TOTAL_WARNINGS`. -/
def analyze_database_config_original (rows : List Row) (sub : String) : Mapping × Nat :=
  rows.foldl (analyzeStep sub) ([], 0)

/-- Loop body of `filter_data` in `configuration_database_compare.py`
(lines 183-193). -/
def filterStep (sub : String) (acc : Mapping) (r : Row) : Mapping :=
  if r.validYear ≠ "9999" then acc
  else if passesFilter sub r.configName then
    dictInsert acc r.configName r.configValue
  else acc

/-- `filter_data` of the refactored variant. -/
def filter_data (rows : List Row) (sub : String) : Mapping :=
  rows.foldl (filterStep sub) []

/-- Loop body of `check_for_duplicates`: test membership in the dict built
so far, then assign. -/
def dupStep (acc : Mapping × Nat) (kv : String × String) : Mapping × Nat :=
  let w := if containsKey acc.1 kv.1 then acc.2 + 1 else acc.2
  (dictInsert acc.1 kv.1 kv.2, w)

/-- `check_for_duplicates` of the refactored variant (lines 195-204): fold
the items of the input dict into a fresh dict, counting re-seen keys. -/
def check_for_duplicates (data : Mapping) : Mapping × Nat :=
  data.foldl dupStep ([], 0)

/-- Loop body of the second (leftover) loop inside the refactored
`analyze_database_config` (lines 220-228): duplicate test against the
current flagged dict, then the substring filter, then assignment. -/
def secondStep (sub : String) (acc : Mapping × Nat) (kv : String × String) : Mapping × Nat :=
  let w := if containsKey acc.1 kv.1 then acc.2 + 1 else acc.2
  if passesFilter sub kv.1 then (dictInsert acc.1 kv.1 kv.2, w)
  else (acc.1, w)

/-- `analyze_database_config` of the refactored variant (lines 206-235):
filter the fetched rows, run `check_for_duplicates`, then run the leftover
loop over the filtered items on top of that state.  The `except` branch is
unreachable in the model (no operation in the loop raises).  Returns the
flagged-keys dict and the warning total added to `TOTAL_WARNINGS`. -/
def analyze_database_config (rows : List Row) (sub : String) : Mapping × Nat :=
  let filtered := filter_data rows sub
  filtered.foldl (secondStep sub) (check_for_duplicates filtered)

example : analyze_database_config [⟨"A", "1", "9999"⟩] "" = ([("A", "1")], 1) := by decide
example : analyze_database_config_original [⟨"A", "1", "9999"⟩] "" = ([("A", "1")], 0) := by decide
example : analyze_database_config_original
    [⟨"A", "1", "9999"⟩, ⟨"A", "2", "9999"⟩, ⟨"B", "9", "2024"⟩] ""
    = ([("A", "2")], 1) := by decide

/-- One difference record: the Python list
`[difference_type, config_name, config_value_database, config_value_script]`. -/
structure DiffEntry where
  kind : String
  name : String
  dbValue : String
  scriptValue : String
deriving DecidableEq, Repr

/-- `compare_database_to_scripts`, the loop shared verbatim by both
variants (original lines 287-299, refactored lines 325-338): iterate the
script dict in insertion order, emit a CHANGE record when the database
holds a different value, a MISSING record (database value `N/A`) when the
database lacks the key, nothing on a match.  The per-iteration appends are
rendered as a `filterMap`. -/
def compare_database_to_scripts (databaseKeys scriptKeys : Mapping) : List DiffEntry :=
  scriptKeys.filterMap fun kv =>
    match lookupKey databaseKeys kv.1 with
    | some dbv => if kv.2 ≠ dbv then some ⟨"CHANGE", kv.1, dbv, kv.2⟩ else none
    | none => some ⟨"MISSING", kv.1, "N/A", kv.2⟩

/-- The comparison stage of `main` with the process-wide `TOTAL_WARNINGS`
counter made explicit: `compare_database_to_scripts` contains no read of or
assignment to the counter, so the stage returns it unchanged alongside the
differences. -/
def compareStage (totalWarnings : Nat) (databaseKeys scriptKeys : Mapping) :
    Nat × List DiffEntry :=
  (totalWarnings, compare_database_to_scripts databaseKeys scriptKeys)

/-- A Python value as passed to the reconciler: either a real dict, or the
non-dict value `None` (the concrete non-dict used to probe the guard). -/
inductive PyVal where
  | dict : Mapping → PyVal
  | pyNone : PyVal
deriving DecidableEq

/-- Python `isinstance(v, dict)`. -/
def isDict : PyVal → Bool
  | .dict _ => true
  | .pyNone => false

/-- `compare_database_to_scripts` of the refactored variant including its
`isinstance` guard (lines 305-310): on a non-dict argument it logs
"Input arguments must be dictionaries." and returns the empty list.  The
Bool records whether that validation error was logged. -/
def compare_database_to_scripts_checked (databaseKeys scriptKeys : PyVal) :
    List DiffEntry × Bool :=
  match databaseKeys, scriptKeys with
  | .dict d, .dict s => (compare_database_to_scripts d s, false)
  | _, _ => ([], true)

/-- `compare_database_to_scripts` of the original variant (lines 270-303)
applied to possibly-non-dict arguments.  It has no `isinstance` guard:
`for config_name in script_keys` raises `TypeError` when `script_keys` is
`None`, and the first membership test `config_name in database_keys`
raises `TypeError` when `database_keys` is `None` (reached only when the
script dict is non-empty). -/
def compare_database_to_scripts_original_dyn (databaseKeys scriptKeys : PyVal) :
    Except String (List DiffEntry) :=
  match scriptKeys with
  | .pyNone => Except.error "TypeError"
  | .dict s =>
    match databaseKeys with
    | .dict d => Except.ok (compare_database_to_scripts d s)
    | .pyNone => if s.isEmpty then Except.ok [] else Except.error "TypeError"

/-- The comparison direction, restricted by the CLI parser
(`choices=['scripts', 'server']`) to exactly these two values. -/
inductive Direction where
  | scripts
  | server
deriving DecidableEq

/-- The remediation statement template
`CALL SP_CREATE_CONFIG_FIELD('{k}', '{v}', null);`. -/
def mkCreateStmt (k v : String) : String :=
  "CALL SP_CREATE_CONFIG_FIELD(\x27" ++ k ++ "\x27, \x27" ++ v ++ "\x27, null);"

/-- The statement built for one difference entry: direction `scripts` uses
the script value, direction `server` uses the database value. -/
def statementFor (d : Direction) (e : DiffEntry) : String :=
  match d with
  | .scripts => mkCreateStmt e.name e.scriptValue
  | .server => mkCreateStmt e.name e.dbValue

/-- `generate_missing_stored_proc_statement` (identical in both variants),
returning the statements actually printed: nothing unless the entry list is
non-empty and `is_print_stored_procs` is set; the per-entry loop sorts the
built statements into the missing list (kind `MISSING`) and the change list
(kind `CHANGE`), dropping unknown kinds; the missing list is printed only
under direction `scripts` (under `server` a skip notice is printed
instead), the change list is always printed. -/
def generate_missing_stored_proc_statement (entries : List DiffEntry)
    (direction : Direction) (isPrintStoredProcs : Bool) :
    List String × List String :=
  if 0 < entries.length ∧ isPrintStoredProcs = true then
    let missing := entries.filterMap fun e =>
      if e.kind = "MISSING" then some (statementFor direction e) else none
    let change := entries.filterMap fun e =>
      if e.kind = "CHANGE" then some (statementFor direction e) else none
    let printedMissing := match direction with
      | .scripts => missing
      | .server => []
    (printedMissing, change)
  else ([], [])

/-- Python `s.split(sep, 1)` for a one-character separator, on the
character list: `none` when the separator does not occur (Python then
returns the one-element list `[s]`). -/
def splitFirst (sep : Char) : List Char → Option (List Char × List Char)
  | [] => none
  | c :: cs =>
      if c = sep then some ([], cs)
      else (splitFirst sep cs).map fun p => (c :: p.1, p.2)

/-- Python `s.split(sep)` for a one-character separator, on the character
list; always returns at least one (possibly empty) field. -/
def splitChar (sep : Char) : List Char → List (List Char)
  | [] => [[]]
  | c :: cs =>
      if c = sep then [] :: splitChar sep cs
      else
        match splitChar sep cs with
        | f :: rest => (c :: f) :: rest
        | [] => [[c]]

/-- Python `line.replace('"', '').replace("'", '')`: drop every double
quote (code 34) and single quote (code 39). -/
def stripQuotes (l : List Char) : List Char :=
  l.filter fun c => !(c = Char.ofNat 39 || c = Char.ofNat 34)

/-- Python `s.strip()`: drop whitespace from both ends. -/
def trimChars (l : List Char) : List Char :=
  ((l.dropWhile Char.isWhitespace).reverse.dropWhile Char.isWhitespace).reverse

/-- The text a statement line contributes after
`statement.split('(', 1)[1]` followed by both quote replacements; `none`
when the line has no opening parenthesis (Python raises `IndexError`
there). -/
def postParenContent (statement : String) : Option (List Char) :=
  match splitFirst (Char.ofNat 40) statement.data with
  | none => none
  | some p => some (stripQuotes p.2)

/-- Key/value selection from the comma-split fields:
`line.split(",")[0].strip()` and `line.split(",")[1].strip()`; `none`
models the `IndexError` on fewer than two fields. -/
def parseFields (fields : List (List Char)) : Option (String × String) :=
  match fields with
  | f0 :: f1 :: _ => some (⟨trimChars f0⟩, ⟨trimChars f1⟩)
  | _ => none

/-- `parse_stored_proc_statement` (identical in both variants): take the
text after the first opening parenthesis, strip quotes, split on commas;
the trimmed first field is the key and the trimmed second field the value.
`none` models the uncaught `IndexError` Python raises when there is no
opening parenthesis or fewer than two comma-separated fields. -/
def parse_stored_proc_statement (statement : String) : Option (String × String) :=
  match postParenContent statement with
  | none => none
  | some line => parseFields (splitChar (Char.ofNat 44) line)

example : parse_stored_proc_statement "CALL SP_CREATE_CONFIG_FIELD(\x27a.b\x27, \x272\x27, null);"
    = some ("a.b", "2") := by decide
example : parse_stored_proc_statement "CALL SP(foo)" = none := by decide

/-- How a run of `main` can go once the connection has been established
(stage names follow the refactored `main`, lines 417-452): the whole
pipeline succeeds, the analysis stage raises, the comparison stage raises,
or the warning-notification stage raises. -/
inductive RunOutcome where
  | success
  | analyzeFails
  | compareFails
  | notifyFails
deriving DecidableEq

/-- Whether the refactored `main` calls `close_connection` before
returning, per outcome.  The `finally` clause (line 450) belongs to the
`try` around `notify_warnings` only, so the `return` inside the
analysis-stage `except` block (line 432) leaves `main` without reaching
it; a comparison-stage or notification-stage exception is caught and
control still reaches the `finally`. -/
def mainClosesConnection : RunOutcome → Bool
  | .analyzeFails => false
  | _ => true

/-- Whether the original variant's `main` (lines 317-371) calls any
close on the connection: it contains no close call at all (the original
class does not even define `close_connection`). -/
def mainClosesConnection_original : RunOutcome → Bool :=
  fun _ => false

/- ## Lemmas about the dict model -/

@[simp] theorem keysOf_nil : keysOf [] = [] := rfl

@[simp] theorem keysOf_cons (kv : String × String) (m : Mapping) :
    keysOf (kv :: m) = kv.1 :: keysOf m := rfl

theorem containsKey_cons (k0 v0 : String) (m : Mapping) (k : String) :
    containsKey ((k0, v0) :: m) k = (decide (k0 = k) || containsKey m k) := by
  by_cases h : k0 = k <;> simp [containsKey, lookupKey, h]

theorem dictInsert_of_not_contains (m : Mapping) (k v : String)
    (h : containsKey m k = false) : dictInsert m k v = m ++ [(k, v)] := by
  induction m with
  | nil => rfl
  | cons kv rest ih =>
    obtain ⟨k0, v0⟩ := kv
    rw [containsKey_cons] at h
    simp only [Bool.or_eq_false_iff, decide_eq_false_iff_not] at h
    simp [dictInsert, h.1, ih h.2]

theorem containsKey_append (a b : Mapping) (k : String) :
    containsKey (a ++ b) k = (containsKey a k || containsKey b k) := by
  induction a with
  | nil => simp [containsKey, lookupKey]
  | cons kv rest ih =>
    obtain ⟨k0, v0⟩ := kv
    by_cases h : k0 = k <;> simp [containsKey_cons, h, ih]

theorem keysOf_dictInsert (m : Mapping) (k v : String) :
    keysOf (dictInsert m k v)
      = if containsKey m k = true then keysOf m else keysOf m ++ [k] := by
  induction m with
  | nil => simp [dictInsert, containsKey, lookupKey]
  | cons kv rest ih =>
    obtain ⟨k0, v0⟩ := kv
    by_cases h : k0 = k
    · simp [dictInsert, h, containsKey_cons]
    · by_cases hc : containsKey rest k = true <;>
        simp [dictInsert, h, containsKey_cons, ih, hc]

theorem containsKey_iff_mem (m : Mapping) (k : String) :
    containsKey m k = true ↔ k ∈ keysOf m := by
  induction m with
  | nil => simp [containsKey, lookupKey]
  | cons kv rest ih =>
    obtain ⟨k0, v0⟩ := kv
    by_cases h : k0 = k
    · simp [containsKey_cons, h, ih]
    · rw [containsKey_cons, decide_eq_false h, Bool.false_or, ih]
      simp only [keysOf_cons, List.mem_cons]
      exact ⟨Or.inr, fun hc => hc.elim (fun heq => absurd heq.symm h) id⟩

theorem nodup_keysOf_dictInsert (m : Mapping) (k v : String)
    (h : (keysOf m).Nodup) : (keysOf (dictInsert m k v)).Nodup := by
  rw [keysOf_dictInsert]
  by_cases hc : containsKey m k = true
  · simpa [hc] using h
  · have hk : k ∉ keysOf m := fun hmem => hc ((containsKey_iff_mem m k).2 hmem)
    simp [hc, List.nodup_append, h, hk]

theorem lookupKey_of_mem_nodup (m : Mapping) (k v : String)
    (hnd : (keysOf m).Nodup) (hm : (k, v) ∈ m) : lookupKey m k = some v := by
  induction m with
  | nil => simp at hm
  | cons kv0 rest ih =>
    obtain ⟨k0, v0⟩ := kv0
    rw [keysOf_cons, List.nodup_cons] at hnd
    rcases List.mem_cons.1 hm with heq | hrest
    · injection heq with h1 h2
      subst h1; subst h2
      simp [lookupKey]
    · have hkmem : k ∈ keysOf rest := List.mem_map_of_mem Prod.fst hrest
      have hk0 : k0 ≠ k := fun h => hnd.1 (h ▸ hkmem)
      simp [lookupKey, hk0, ih hnd.2 hrest]

theorem dictInsert_of_lookup (m : Mapping) (k v : String)
    (h : lookupKey m k = some v) : dictInsert m k v = m := by
  induction m with
  | nil => simp [lookupKey] at h
  | cons kv0 rest ih =>
    obtain ⟨k0, v0⟩ := kv0
    by_cases hk : k0 = k
    · rw [lookupKey, if_pos hk] at h
      injection h with hv
      simp [dictInsert, hk, hv]
    · rw [lookupKey, if_neg hk] at h
      simp [dictInsert, hk, ih h]

theorem mem_dictInsert_keyPred (P : String → Prop) (m : Mapping) (k v : String)
    (hm : ∀ kv ∈ m, P kv.1) (hk : P k) : ∀ kv ∈ dictInsert m k v, P kv.1 := by
  induction m with
  | nil =>
    intro kv hkv
    rw [dictInsert, List.mem_singleton] at hkv
    subst hkv; exact hk
  | cons kv0 rest ih =>
    obtain ⟨k0, v0⟩ := kv0
    intro kv hkv
    by_cases h : k0 = k
    · rw [dictInsert, if_pos h] at hkv
      rcases List.mem_cons.1 hkv with heq | hrest
      · subst heq; exact h ▸ hk
      · exact hm kv (List.mem_cons_of_mem _ hrest)
    · rw [dictInsert, if_neg h] at hkv
      rcases List.mem_cons.1 hkv with heq | hrest
      · subst heq; exact hm (k0, v0) (List.mem_cons_self _ _)
      · exact ih (fun kv h => hm kv (List.mem_cons_of_mem _ h)) kv hrest

/- ## The two analyze variants build the same mapping -/

theorem analyzeStep_fst (sub : String) (acc : Mapping × Nat) (r : Row) :
    (analyzeStep sub acc r).1 = filterStep sub acc.1 r := by
  by_cases h : r.validYear ≠ "9999"
  · simp [analyzeStep, filterStep, h]
  · by_cases hp : passesFilter sub r.configName = true <;>
      simp [analyzeStep, filterStep, h, hp]

theorem analyze_original_foldl_fst (rows : List Row) (sub : String) :
    ∀ acc : Mapping × Nat,
      (rows.foldl (analyzeStep sub) acc).1 = rows.foldl (filterStep sub) acc.1 := by
  induction rows with
  | nil => intro acc; rfl
  | cons r rest ih =>
    intro acc
    rw [List.foldl_cons, List.foldl_cons, ih (analyzeStep sub acc r), analyzeStep_fst]

theorem analyze_original_fst (rows : List Row) (sub : String) :
    (analyze_database_config_original rows sub).1 = filter_data rows sub :=
  analyze_original_foldl_fst rows sub ([], 0)

theorem foldl_dupStep_disjoint :
    ∀ (l acc : Mapping) (w : Nat), (keysOf l).Nodup →
      (∀ k ∈ keysOf l, containsKey acc k = false) →
      (l.foldl dupStep (acc, w)).1 = acc ++ l := by
  intro l
  induction l with
  | nil => intro acc w _ _; simp
  | cons kv rest ih =>
    intro acc w hnd hdisj
    obtain ⟨k, v⟩ := kv
    have hc : containsKey acc k = false := hdisj k (by simp)
    have hstep : dupStep (acc, w) (k, v) = (acc ++ [(k, v)], w) := by
      simp [dupStep, hc, dictInsert_of_not_contains _ _ _ hc]
    rw [List.foldl_cons, hstep]
    rw [keysOf_cons, List.nodup_cons] at hnd
    have hdisj' : ∀ k' ∈ keysOf rest, containsKey (acc ++ [(k, v)]) k' = false := by
      intro k' hk'
      rw [containsKey_append]
      have h1 : containsKey acc k' = false := hdisj k' (by simp [hk'])
      have hkk : ¬(k = k') := fun h => hnd.1 (h ▸ hk')
      have h2 : containsKey [(k, v)] k' = false := by
        simp [containsKey, lookupKey, hkk]
      simp [h1, h2]
    rw [ih (acc ++ [(k, v)]) w hnd.2 hdisj']
    simp

theorem check_for_duplicates_fst (m : Mapping) (hnd : (keysOf m).Nodup) :
    (check_for_duplicates m).1 = m := by
  have h := foldl_dupStep_disjoint m [] 0 hnd (fun k _ => rfl)
  simpa [check_for_duplicates] using h

theorem foldl_secondStep_self (sub : String) :
    ∀ (l m : Mapping) (w : Nat),
      (∀ kv ∈ l, lookupKey m kv.1 = some kv.2) →
      (∀ kv ∈ l, passesFilter sub kv.1 = true) →
      (l.foldl (secondStep sub) (m, w)).1 = m := by
  intro l
  induction l with
  | nil => intro m w _ _; rfl
  | cons kv rest ih =>
    intro m w hl hp
    obtain ⟨k, v⟩ := kv
    have hlk : lookupKey m k = some v := hl (k, v) (by simp)
    have hpk : passesFilter sub k = true := hp (k, v) (by simp)
    have hstep : secondStep sub (m, w) (k, v)
        = (m, if containsKey m k then w + 1 else w) := by
      simp [secondStep, hpk, dictInsert_of_lookup _ _ _ hlk]
    rw [List.foldl_cons, hstep]
    exact ih m _ (fun kv h => hl kv (List.mem_cons_of_mem _ h))
      (fun kv h => hp kv (List.mem_cons_of_mem _ h))

theorem filterStep_invariant (sub : String) (acc : Mapping) (r : Row)
    (h1 : (keysOf acc).Nodup) (h2 : ∀ kv ∈ acc, passesFilter sub kv.1 = true) :
    (keysOf (filterStep sub acc r)).Nodup ∧
      (∀ kv ∈ filterStep sub acc r, passesFilter sub kv.1 = true) := by
  unfold filterStep
  by_cases hv : r.validYear ≠ "9999"
  · rw [if_pos hv]; exact ⟨h1, h2⟩
  · rw [if_neg hv]
    by_cases hp : passesFilter sub r.configName = true
    · rw [if_pos hp]
      exact ⟨nodup_keysOf_dictInsert _ _ _ h1,
        mem_dictInsert_keyPred (fun s => passesFilter sub s = true) _ _ _ h2 hp⟩
    · rw [if_neg hp]
      exact ⟨h1, h2⟩

theorem filter_data_foldl_invariant (rows : List Row) (sub : String) :
    ∀ acc : Mapping, (keysOf acc).Nodup →
      (∀ kv ∈ acc, passesFilter sub kv.1 = true) →
      (keysOf (rows.foldl (filterStep sub) acc)).Nodup ∧
        (∀ kv ∈ rows.foldl (filterStep sub) acc, passesFilter sub kv.1 = true) := by
  induction rows with
  | nil => intro acc h1 h2; exact ⟨h1, h2⟩
  | cons r rest ih =>
    intro acc h1 h2
    rw [List.foldl_cons]
    obtain ⟨h1', h2'⟩ := filterStep_invariant sub acc r h1 h2
    exact ih (filterStep sub acc r) h1' h2'

theorem filter_data_nodup (rows : List Row) (sub : String) :
    (keysOf (filter_data rows sub)).Nodup :=
  (filter_data_foldl_invariant rows sub [] (by simp) (by simp)).1

theorem filter_data_passes (rows : List Row) (sub : String) :
    ∀ kv ∈ filter_data rows sub, passesFilter sub kv.1 = true :=
  (filter_data_foldl_invariant rows sub [] (by simp) (by simp)).2

theorem analyze_refactored_fst (rows : List Row) (sub : String) :
    (analyze_database_config rows sub).1 = filter_data rows sub := by
  have hnd := filter_data_nodup rows sub
  have hcd := check_for_duplicates_fst (filter_data rows sub) hnd
  have h1 : ∀ kv ∈ filter_data rows sub,
      lookupKey ((check_for_duplicates (filter_data rows sub)).1) kv.1 = some kv.2 := by
    rw [hcd]
    exact fun kv hkv => lookupKey_of_mem_nodup _ _ _ hnd hkv
  have hmain := foldl_secondStep_self sub (filter_data rows sub)
    ((check_for_duplicates (filter_data rows sub)).1)
    ((check_for_duplicates (filter_data rows sub)).2) h1 (filter_data_passes rows sub)
  calc (analyze_database_config rows sub).1
      = (check_for_duplicates (filter_data rows sub)).1 := hmain
    _ = filter_data rows sub := hcd

/- ## Reconciler lemmas -/

theorem mem_compare_name (db s : Mapping) (e : DiffEntry)
    (he : e ∈ compare_database_to_scripts db s) : e.name ∈ keysOf s := by
  unfold compare_database_to_scripts at he
  obtain ⟨kv, hkv, hfe⟩ := List.mem_filterMap.1 he
  have hname : e.name = kv.1 := by
    split at hfe
    · split at hfe
      · have h := Option.some.inj hfe
        subst h; rfl
      · exact absurd hfe (by simp)
    · have h := Option.some.inj hfe
      subst h; rfl
  rw [hname]
  exact List.mem_map_of_mem Prod.fst hkv

theorem compare_self_eq_nil (s : Mapping) (hnd : (keysOf s).Nodup) :
    compare_database_to_scripts s s = [] := by
  unfold compare_database_to_scripts
  rw [List.filterMap_eq_nil_iff]
  intro kv hkv
  rw [lookupKey_of_mem_nodup s kv.1 kv.2 hnd hkv]
  simp

/- ## Claim theorems -/

/-- Claim C1: the database-side extraction pass should return a duplicate
warning count equal to retained observations minus distinct retained keys.
The refactored `analyze_database_config` violates this: on a single
retained row with a unique key (expected count 0) it reports 1 warning,
because its leftover post-`check_for_duplicates` loop counts every key as
a duplicate; the original variant reports the expected 0. -/
theorem duplicate_count_bug :
    analyze_database_config [⟨"A", "1", "9999"⟩] "" = ([("A", "1")], 1) ∧
    analyze_database_config_original [⟨"A", "1", "9999"⟩] "" = ([("A", "1")], 0) := by
  decide

/-- Claim C2: every record produced by the reconciler has a key present in
the scripts mapping, and on identical mappings the reconciler returns the
empty list. -/
theorem reconciler_script_driven (db s : Mapping) (hnd : (keysOf s).Nodup) :
    (∀ e ∈ compare_database_to_scripts db s, e.name ∈ keysOf s) ∧
    compare_database_to_scripts s s = [] :=
  ⟨fun e he => mem_compare_name db s e he, compare_self_eq_nil s hnd⟩

/-- Witness for C2 at concrete mappings. -/
theorem reconciler_script_driven_witness :
    (∀ e ∈ compare_database_to_scripts [("X", "1")] [("A", "2")],
      e.name ∈ keysOf [("A", "2")]) ∧
    compare_database_to_scripts [("A", "2")] [("A", "2")] = [] :=
  reconciler_script_driven [("X", "1")] [("A", "2")] (by decide)

/-- Claim C3: for database mapping `{A:"1", B:"2"}` and scripts mapping
`{A:"1", B:"3", C:"4"}` the reconciler yields exactly
`[CHANGE(B, "2", "3"), MISSING(C, "N/A", "4")]` in that order, and the
comparison stage leaves the warning total unchanged. -/
theorem compare_sample_mappings (w : Nat) :
    compareStage w [("A", "1"), ("B", "2")] [("A", "1"), ("B", "3"), ("C", "4")]
      = (w, [⟨"CHANGE", "B", "2", "3"⟩, ⟨"MISSING", "C", "N/A", "4"⟩]) := by
  have h : compare_database_to_scripts [("A", "1"), ("B", "2")]
      [("A", "1"), ("B", "3"), ("C", "4")]
      = [⟨"CHANGE", "B", "2", "3"⟩, ⟨"MISSING", "C", "N/A", "4"⟩] := by decide
  simp [compareStage, h]

/-- Claim C4: a MISSING record with key X and script value Y yields the
statement `CALL SP_CREATE_CONFIG_FIELD('X', 'Y', null);` in the emitted
missing list under direction `scripts`; under direction `server` the
emitted missing list is empty; a CHANGE record yields an emitted change
statement in both directions with the direction-appropriate value. -/
theorem remediation_direction (entries : List DiffEntry) (X Y dbv : String) :
    ((⟨"MISSING", X, dbv, Y⟩ : DiffEntry) ∈ entries →
      mkCreateStmt X Y ∈
        (generate_missing_stored_proc_statement entries Direction.scripts true).1) ∧
    (generate_missing_stored_proc_statement entries Direction.server true).1 = [] ∧
    ((⟨"CHANGE", X, dbv, Y⟩ : DiffEntry) ∈ entries →
      mkCreateStmt X Y ∈
        (generate_missing_stored_proc_statement entries Direction.scripts true).2 ∧
      mkCreateStmt X dbv ∈
        (generate_missing_stored_proc_statement entries Direction.server true).2) := by
  refine ⟨?_, ?_, ?_⟩
  · intro hm
    have hlen : 0 < entries.length := List.length_pos.2 (List.ne_nil_of_mem hm)
    unfold generate_missing_stored_proc_statement
    rw [if_pos ⟨hlen, rfl⟩]
    exact List.mem_filterMap.2 ⟨_, hm, by simp [statementFor]⟩
  · by_cases hlen : 0 < entries.length
    · unfold generate_missing_stored_proc_statement
      rw [if_pos ⟨hlen, rfl⟩]
    · unfold generate_missing_stored_proc_statement
      rw [if_neg (fun hc => hlen hc.1)]
  · intro hm
    have hlen : 0 < entries.length := List.length_pos.2 (List.ne_nil_of_mem hm)
    constructor <;>
      (unfold generate_missing_stored_proc_statement
       rw [if_pos ⟨hlen, rfl⟩]
       exact List.mem_filterMap.2 ⟨_, hm, by simp [statementFor]⟩)

/-- Witness for C4 at a concrete entry list. -/
theorem remediation_direction_witness :
    mkCreateStmt "X" "Y" ∈ (generate_missing_stored_proc_statement
      [⟨"MISSING", "X", "D", "Y"⟩, ⟨"CHANGE", "X", "D", "Y"⟩] Direction.scripts true).1 ∧
    (generate_missing_stored_proc_statement
      [⟨"MISSING", "X", "D", "Y"⟩, ⟨"CHANGE", "X", "D", "Y"⟩] Direction.server true).1 = [] ∧
    mkCreateStmt "X" "D" ∈ (generate_missing_stored_proc_statement
      [⟨"MISSING", "X", "D", "Y"⟩, ⟨"CHANGE", "X", "D", "Y"⟩] Direction.server true).2 := by
  obtain ⟨h1, h2, h3⟩ := remediation_direction
    [⟨"MISSING", "X", "D", "Y"⟩, ⟨"CHANGE", "X", "D", "Y"⟩] "X" "Y" "D"
  exact ⟨h1 (by decide), h2, (h3 (by decide)).2⟩

/-- Claim C5: a database row whose validity year is not the sentinel
`9999` is excluded before duplicate detection in both variants — removing
it changes neither the mapping nor the duplicate count of the original
`analyze_database_config`, nor `filter_data`, nor the refactored
`analyze_database_config`. -/
theorem expired_row_excluded (l1 l2 : List Row) (r : Row) (sub : String)
    (h : r.validYear ≠ "9999") :
    analyze_database_config_original (l1 ++ r :: l2) sub
      = analyze_database_config_original (l1 ++ l2) sub ∧
    filter_data (l1 ++ r :: l2) sub = filter_data (l1 ++ l2) sub ∧
    analyze_database_config (l1 ++ r :: l2) sub
      = analyze_database_config (l1 ++ l2) sub := by
  have hstep : ∀ acc : Mapping × Nat, analyzeStep sub acc r = acc := by
    intro acc; simp [analyzeStep, h]
  have hfstep : ∀ acc : Mapping, filterStep sub acc r = acc := by
    intro acc; simp [filterStep, h]
  have h2 : filter_data (l1 ++ r :: l2) sub = filter_data (l1 ++ l2) sub := by
    unfold filter_data
    rw [List.foldl_append, List.foldl_append, List.foldl_cons, hfstep]
  refine ⟨?_, h2, ?_⟩
  · unfold analyze_database_config_original
    rw [List.foldl_append, List.foldl_append, List.foldl_cons, hstep]
  · unfold analyze_database_config
    rw [h2]

/-- Witness for C5: a unique-keyed row dated 2024 contributes nothing. -/
theorem expired_row_excluded_witness :
    analyze_database_config_original [⟨"A", "1", "2024"⟩] ""
      = analyze_database_config_original [] "" ∧
    filter_data [⟨"A", "1", "2024"⟩] "" = filter_data [] "" ∧
    analyze_database_config [⟨"A", "1", "2024"⟩] ""
      = analyze_database_config [] "" :=
  expired_row_excluded [] [] ⟨"A", "1", "2024"⟩ "" (by decide)

/-- Claim C6: the connection should be released on every post-connection
path, but when the analysis stage raises, the refactored `main` returns
from that stage's `except` block without reaching the `finally` attached
to the later `try`, so `close_connection` is never called — and the
original variant's `main` never closes the connection on any outcome. -/
theorem connection_not_closed_on_analyze_failure :
    mainClosesConnection RunOutcome.analyzeFails = false ∧
    mainClosesConnection_original RunOutcome.success = false := by
  decide

/-- Claim C7: a statement line whose text after the first opening
parenthesis splits into fewer than two comma-separated fields makes
`parse_stored_proc_statement` fail (the uncaught `IndexError`), never
yielding a partial key/value pair. -/
theorem malformed_line_is_error (s : String) (line : List Char)
    (hpost : postParenContent s = some line)
    (hfields : (splitChar (Char.ofNat 44) line).length < 2) :
    parse_stored_proc_statement s = none := by
  unfold parse_stored_proc_statement
  rw [hpost]
  show parseFields (splitChar (Char.ofNat 44) line) = none
  rcases hsp : splitChar (Char.ofNat 44) line with _ | ⟨f0, rest⟩
  · rfl
  · rcases rest with _ | ⟨f1, rest'⟩
    · rfl
    · rw [hsp] at hfields
      simp at hfields
      omega

/-- Witness for C7: `CALL SP(foo)` has a single comma-free field. -/
theorem malformed_line_is_error_witness :
    postParenContent "CALL SP(foo)" = some "foo)".data ∧
    (splitChar (Char.ofNat 44) "foo)".data).length < 2 ∧
    parse_stored_proc_statement "CALL SP(foo)" = none :=
  ⟨by decide, by decide,
    malformed_line_is_error "CALL SP(foo)" "foo)".data (by decide) (by decide)⟩

/-- Claim C8 counterexample: the claim (made for both variants) says the
reconciler logs and returns an empty result on non-dict input; the original
variant instead raises a `TypeError` when the scripts argument is `None`. -/
theorem original_reconciler_raises_on_none :
    compare_database_to_scripts_original_dyn (PyVal.dict [("A", "1")]) PyVal.pyNone
      = Except.error "TypeError" := rfl

/-- Claim C8 (amended): the refactored reconciler, whose `isinstance`
guard exists, logs the validation failure and returns the empty list
whenever either argument is not a dict. -/
theorem checked_reconciler_empty_on_nondict (db s : PyVal)
    (h : isDict db = false ∨ isDict s = false) :
    compare_database_to_scripts_checked db s = ([], true) := by
  cases db <;> cases s <;> simp_all [isDict, compare_database_to_scripts_checked]

/-- Witness for the amended C8. -/
theorem checked_reconciler_empty_on_nondict_witness :
    compare_database_to_scripts_checked PyVal.pyNone (PyVal.dict [("A", "1")])
      = ([], true) :=
  checked_reconciler_empty_on_nondict PyVal.pyNone (PyVal.dict [("A", "1")]) (Or.inl rfl)

/-- Claim C9: for every fetched row sequence and substring filter, the
original `analyze_database_config` and the refactored one (`filter_data`
followed by `check_for_duplicates` and the leftover re-insertion loop)
return the same key-to-value mapping. -/
theorem analyze_variants_same_mapping (rows : List Row) (sub : String) :
    (analyze_database_config_original rows sub).1
      = (analyze_database_config rows sub).1 := by
  rw [analyze_refactored_fst, analyze_original_fst]

/-- Claim C10: when the text after the first opening parenthesis (quotes
stripped) splits on commas into fields `f0 :: f1 :: fs`, the parser
returns exactly the trimmed `f0` as key and the trimmed `f1` as value,
silently discarding every later field — so a value containing a comma is
truncated at that comma. -/
theorem value_truncated_at_comma (s : String) (line f0 f1 : List Char)
    (fs : List (List Char))
    (hpost : postParenContent s = some line)
    (hsplit : splitChar (Char.ofNat 44) line = f0 :: f1 :: fs) :
    parse_stored_proc_statement s = some (⟨trimChars f0⟩, ⟨trimChars f1⟩) := by
  unfold parse_stored_proc_statement
  rw [hpost]
  show parseFields (splitChar (Char.ofNat 44) line) = some (⟨trimChars f0⟩, ⟨trimChars f1⟩)
  rw [hsplit]
  rfl

/-- Witness for C10: the quoted value `'a,b'` is truncated to `a`. -/
theorem value_truncated_at_comma_witness :
    postParenContent "CALL SP_CREATE_CONFIG_FIELD(\x27k\x27, \x27a,b\x27, null);"
      = some "k, a,b, null);".data ∧
    splitChar (Char.ofNat 44) "k, a,b, null);".data
      = ["k".data, " a".data, "b".data, " null);".data] ∧
    parse_stored_proc_statement "CALL SP_CREATE_CONFIG_FIELD(\x27k\x27, \x27a,b\x27, null);"
      = some ("k", "a") :=
  ⟨by decide, by decide,
    value_truncated_at_comma "CALL SP_CREATE_CONFIG_FIELD(\x27k\x27, \x27a,b\x27, null);"
      "k, a,b, null);".data "k".data " a".data ["b".data, " null);".data]
      (by decide) (by decide)⟩
